import Mathlib

/-!
Verification development for the KMLpro conversion core (src/app.py).

The Python source is shallowly embedded:
* coordinate values are rationals (`ℚ`); Python's `float(...)` literal parser is
  modelled by `pyFloat?` on the sign/decimal forms that occur in coordinate
  tokens (exponent forms, `inf`/`nan` and digit underscores are outside the
  modelled fragment);
* geodesic computations (`haversine_distance`, the midpoint averages, `round`)
  are embedded over `ℝ`;
* the XML layer is abstracted: an input document is `none` when
  `xml.etree.ElementTree.fromstring` fails (not well-formed XML), otherwise the
  relevant parsed view (the list of `<coordinates>` element texts for the
  single-route reader, the list of `<Placemark>` views for the multi-route
  reader).  An element's text is `Option String` because ElementTree's `.text`
  is `None` for a text-less element.
-/

/-- Python's default whitespace class as far as `str.strip` / `\s` is concerned
(src/app.py:47,50: `.strip()` and `re.split(r'[\s,]+', ...)`). -/
def isPyWs (c : Char) : Bool :=
  c == ' ' || c == '\t' || c == '\n' || c == '\r' || c == '\x0b' || c == '\x0c'

/-- A separator character of the tokenizing regex `[\s,]+` (src/app.py:50,93). -/
def isSep (c : Char) : Bool :=
  c == ',' || isPyWs c

/-- Python `str.strip()`: drop whitespace from both ends (src/app.py:47,90). -/
def pyStrip (s : String) : String :=
  String.mk (((s.data.dropWhile isPyWs).reverse.dropWhile isPyWs).reverse)

/-- `re.split(r'[\s,]+', s)` on the character list: maximal runs of separator
characters are single split points; boundary runs yield empty tokens
(src/app.py:50,93).  `cur` is the current token (reversed), `inRun` records
whether the previous character was a separator, so that a run of separators
yields a single boundary. -/
def splitGo : List Char → List Char → Bool → List String
  | [], cur, _ => [String.mk cur.reverse]
  | c :: cs, cur, inRun =>
    if isSep c then
      if inRun then splitGo cs [] true
      else String.mk cur.reverse :: splitGo cs [] true
    else splitGo cs (c :: cur) false

/-- `re.split(r'[\s,]+', s)` (src/app.py:50,93). -/
def reSplit (s : String) : List String :=
  splitGo s.data [] false

/-- The numeric value of a decimal digit character, when it is one. -/
def digitVal? (c : Char) : Option ℕ :=
  if 48 ≤ c.toNat ∧ c.toNat ≤ 57 then some (c.toNat - 48) else none

/-- Longest digit prefix of a character list, as digit values, plus the rest. -/
def takeDigits : List Char → List ℕ × List Char
  | [] => ([], [])
  | c :: cs =>
    match digitVal? c with
    | some d =>
      let r := takeDigits cs
      (d :: r.1, r.2)
    | none => ([], c :: cs)

/-- Value of a big-endian digit list. -/
def digitsVal (ds : List ℕ) : ℕ :=
  ds.foldl (fun a d => a * 10 + d) 0

/-- Model of Python's `float(token)` on the sign/decimal literal forms
(`[+-]?digits`, `[+-]?digits.digits`, `[+-]?.digits`, `[+-]?digits.`); any
other token (in particular a non-numeric one, or the empty token produced by a
boundary separator run) fails, as `float` raises `ValueError`
(src/app.py:55-56,99-100).  Split into three stages: the optional sign,
the digits-dot-digits tail, and their composition `pyFloatCore`. -/
def signSplit (cs : List Char) : ℤ × List Char :=
  match cs with
  | [] => (1, [])
  | c :: r => if c == '-' then (-1, r) else if c == '+' then (1, r) else (1, c :: r)

def pyFloatTail (sgn : ℤ) (cs : List Char) : Option ℚ :=
  let ints := takeDigits cs
  match ints.2 with
  | [] =>
    if ints.1.isEmpty then none
    else some (mkRat (sgn * digitsVal ints.1) 1)
  | c :: cs3 =>
    if c == '.' then
      let fracs := takeDigits cs3
      if fracs.2.isEmpty && !(ints.1.isEmpty && fracs.1.isEmpty) then
        some (mkRat (sgn * (digitsVal ints.1 * 10 ^ fracs.1.length + digitsVal fracs.1))
          (10 ^ fracs.1.length))
      else none
    else none

def pyFloatCore (cs : List Char) : Option ℚ :=
  pyFloatTail (signSplit cs).1 (signSplit cs).2

def pyFloat? (s : String) : Option ℚ :=
  pyFloatCore s.data

/-- The coordinate-triple loop shared by both readers: tokens are consumed in
fixed groups of three `(longitude, latitude, altitude)`; the altitude token is
never parsed; a group whose longitude or latitude fails `float` is skipped
whole; a trailing group of fewer than three tokens is ignored
(src/app.py:53-59 and 97-103, `for i in range(0, len(coord_parts)-2, 3)`). -/
def parseTriples : List String → List (ℚ × ℚ)
  | p0 :: p1 :: _ :: rest =>
    (match pyFloat? p0, pyFloat? p1 with
     | some lon, some lat => fun l => (lat, lon) :: l
     | _, _ => id) (parseTriples rest)
  | _ => []

/-- The shared coordinate tokenizer: strip the element text, split on runs of
whitespace/commas, then consume triples (src/app.py:47-59, 90-103). -/
def tokenizeCoords (t : String) : List (ℚ × ℚ) :=
  parseTriples (reSplit (pyStrip t))

/-- The per-element step of `parse_kml_coordinates` (src/app.py:46-59): a
`<coordinates>` element with text appends its tokenized triples to the
accumulated list; one without text makes `.text.strip()` raise
`AttributeError`, aborting the whole extraction. -/
def coordStep (acc : List (ℚ × ℚ)) (t? : Option String) : Option (List (ℚ × ℚ)) :=
  match t? with
  | none => none
  | some t => some (acc ++ tokenizeCoords t)

/-- `parse_kml_coordinates` (src/app.py:33-64).  The input is `none` when the
document is not well-formed XML; otherwise it is the document-order list of
`<coordinates>` element texts (`none` for a text-less element).  Any exception
makes the whole function return the empty list (src/app.py:62-64). -/
def parse_kml_coordinates (input : Option (List (Option String))) : List (ℚ × ℚ) :=
  match input with
  | none => []
  | some elems =>
    (elems.foldlM coordStep ([] : List (ℚ × ℚ))).getD []

/-- Parsed view of one `<Placemark>` element for `parse_kml_multi_routes`:
`nameElem` is `none` when there is no `<name>` child, otherwise the child's
optional text; `lineString` is `none` when there is no descendant
`<LineString>`, `some none` when the `<LineString>` has no `<coordinates>`
child, and `some (some t)` when it has one with text `t : Option String`
(src/app.py:80-89). -/
structure Placemark where
  nameElem : Option (Option String)
  lineString : Option (Option (Option String))
deriving DecidableEq

/-- `route_name = name_elem.text if name_elem is not None else "Unnamed Route"`
(src/app.py:82-83).  The result is `none` exactly when a `<name>` child exists
but has no text (then `re.sub` on `None` raises `TypeError`). -/
def pmRouteName (pm : Placemark) : Option String :=
  match pm.nameElem with
  | none => some ("Unnamed Route")
  | some t? => t?

/-- `re.sub(r'[\\/*?:\[\]<>|]', '_', route_name)[:31]` (src/app.py:107-108). -/
def cleanName (nm : String) : String :=
  String.mk ((nm.data.map (fun c =>
    if c == '\\' || c == '/' || c == '*' || c == '?' || c == ':' ||
       c == '[' || c == ']' || c == '<' || c == '>' || c == '|'
    then '_' else c)).take 31)

/-- Python dict assignment `routes[clean_name] = coordinates` on an
insertion-ordered association list: an existing key keeps its position and gets
the new value, a new key is appended (src/app.py:109). -/
def dictInsert (m : List (String × List (ℚ × ℚ))) (k : String)
    (v : List (ℚ × ℚ)) : List (String × List (ℚ × ℚ)) :=
  if m.any (fun p => p.1 == k) then
    m.map (fun p => if p.1 == k then (k, v) else p)
  else m ++ [(k, v)]

/-- The per-placemark step of `parse_kml_multi_routes` (src/app.py:80-109):
skip when there is no `LineString` or no `coordinates` child; raise
(= abort the whole parse) when the `coordinates` element or the `name` child
has no text and coordinates are nonempty; otherwise insert the tokenized
coordinates under the sanitized route name when they are nonempty. -/
def processPlacemark (routes : List (String × List (ℚ × ℚ))) (pm : Placemark) :
    Option (List (String × List (ℚ × ℚ))) :=
  match pm.lineString with
  | none => some routes
  | some none => some routes
  | some (some none) => none
  | some (some (some t)) =>
    let coordinates := tokenizeCoords t
    if coordinates.isEmpty then some routes
    else
      match pmRouteName pm with
      | none => none
      | some nm => some (dictInsert routes (cleanName nm) coordinates)

/-- `parse_kml_multi_routes` (src/app.py:66-114).  The input is `none` when the
document is not well-formed XML; otherwise the document-order list of
`<Placemark>` views.  Any exception makes the whole function return the empty
dict (src/app.py:112-114). -/
def parse_kml_multi_routes (input : Option (List Placemark)) :
    List (String × List (ℚ × ℚ)) :=
  match input with
  | none => []
  | some pms => (pms.foldlM processPlacemark []).getD []

/-- The character of a decimal digit value. -/
def charOfDigit (d : ℕ) : Char := Char.ofNat (48 + d)

/-- Little-endian base-10 digits, by fuel (structurally recursive so that
concrete renderings evaluate). -/
def digitsLE (fuel : ℕ) (n : ℕ) : List ℕ :=
  match fuel with
  | 0 => []
  | fuel + 1 => if n = 0 then [] else n % 10 :: digitsLE fuel (n / 10)

/-- Little-endian base-10 digits of `n`. -/
def decDigits (n : ℕ) : List ℕ := digitsLE n n

/-- Digit values of `n`, most significant first, `[0]` for `n = 0`. -/
def natDigitsOr0 (n : ℕ) : List ℕ :=
  if n = 0 then [0] else (decDigits n).reverse

/-- Python `str` of a natural number. -/
def natStr (n : ℕ) : String := String.mk ((natDigitsOr0 n).map charOfDigit)

/-- Python `str` of an integer: used for the f-string interpolation of
`int(row['length'])` (src/app.py:277). -/
def intStr (m : ℤ) : String :=
  if m < 0 then "-" ++ natStr m.natAbs else natStr m.natAbs

/-- Python `int(x)` on a float/rational: truncation toward zero
(src/app.py:277). -/
def pyInt (q : ℚ) : ℤ :=
  if q.num < 0 then -(((-q.num).toNat / q.den : ℕ) : ℤ)
  else ((q.num.toNat / q.den : ℕ) : ℤ)

/-- The least `k ≤ d` with `d ∣ 10 ^ k` (0 when there is none): how many
decimal fraction digits a denominator `d` needs. -/
def decExp (d : ℕ) : ℕ :=
  (((List.range (d + 1)).find? fun k => decide (d ∣ 10 ^ k))).getD 0

/-- The fraction digit values of `m * 10^(-k)`: the last `k` digits of `m`,
zero-padded on the left; `[0]` when `k = 0` (Python renders `10.0` for an
integral float). -/
def fracDigits (k m : ℕ) : List ℕ :=
  if k = 0 then [0]
  else List.replicate (k - (decDigits (m % 10 ^ k)).length) 0 ++
    (decDigits (m % 10 ^ k)).reverse

/-- Character list `[-]intdigits.fracdigits`. -/
def renderDigits (sgnNeg : Bool) (intDs fracDs : List ℕ) : List Char :=
  (if sgnNeg then ['-'] else []) ++ intDs.map charOfDigit ++
    '.' :: fracDs.map charOfDigit

/-- Modelled from the spec (§4.5, §6: the writer interpolates the float values
of `row['latitude']`/`row['longitude']` into the KML text): Python's
`str(float)` decimal rendering, embedded for rationals whose denominator is a
power of ten (every IEEE-754 double has one). -/
def qRender (q : ℚ) : String :=
  let k := decExp q.den
  let m := q.num.natAbs * 10 ^ k / q.den
  String.mk (renderDigits (decide (q.num < 0)) (natDigitsOr0 (m / 10 ^ k)) (fracDigits k m))

/-- One row of the dataframe handed to `csv_to_kml` after the required-column
check: the three columns the writer reads, each possibly null
(src/app.py:272-273). -/
structure CsvRow where
  length : Option ℚ
  latitude : Option ℚ
  longitude : Option ℚ
deriving DecidableEq

/-- The `pd.notna` test of all three fields (src/app.py:273). -/
def isFull (r : CsvRow) : Bool :=
  r.length.isSome && r.latitude.isSome && r.longitude.isSome

/-- The data of one emitted `<Placemark>` (src/app.py:276-292): its `<name>`
text, the two `<LookAt>` interpolations, the `<styleUrl>` text and the
`<Point><coordinates>` text. -/
structure OutPlacemark where
  name : String
  lookAtLon : String
  lookAtLat : String
  styleUrl : String
  coordText : String
deriving DecidableEq

/-- The placemark emitted for dataframe index `index` and values
`l` (length), `la` (latitude), `lo` (longitude): name is `int(length)`,
`style_ref = "#m_ylw-pushpin0" if index == 0 else "#m_ylw-pushpin"`, the Point
coordinates text is `longitude,latitude,0` (src/app.py:274-292). -/
def mkPlacemark (index : ℕ) (l la lo : ℚ) : OutPlacemark :=
  { name := intStr (pyInt l)
    lookAtLon := qRender lo
    lookAtLat := qRender la
    styleUrl := if index = 0 then "#m_ylw-pushpin0" else "#m_ylw-pushpin"
    coordText := qRender lo ++ "," ++ qRender la ++ ",0" }

/-- The body of the `df.iterrows()` loop (src/app.py:272-294): a row with all
of length/latitude/longitude non-null yields a placemark, any other row yields
nothing. -/
def emitRow : ℕ × CsvRow → Option OutPlacemark
  | (i, r) =>
    match r.length, r.latitude, r.longitude with
    | some l, some la, some lo => some (mkPlacemark i l la lo)
    | _, _, _ => none

/-- The `placemarks` list built by `csv_to_kml` (src/app.py:270-294). -/
def csv_to_kml_placemarks (rows : List CsvRow) : List OutPlacemark :=
  rows.enum.filterMap emitRow

/-- Folder-level view of the emitted document: the fixed template wraps the
whole placemark list in the single `<Folder>` element (src/app.py:262-266). -/
def csv_to_kml_folders (rows : List CsvRow) : List (List OutPlacemark) :=
  [csv_to_kml_placemarks rows]

/-- The f-string of src/app.py:276-292 as explicit concatenation. -/
def renderPlacemark (pm : OutPlacemark) : String :=
  "\t\t<Placemark>\n\t\t\t<name>" ++ pm.name ++
    "</name>\n\t\t\t<LookAt>\n\t\t\t\t<longitude>" ++ pm.lookAtLon ++
    "</longitude>\n\t\t\t\t<latitude>" ++ pm.lookAtLat ++
    "</latitude>\n\t\t\t\t<altitude>0</altitude>\n\t\t\t\t<heading>-1.521859235210106e-05</heading>\n\t\t\t\t<tilt>14.4237821896138</tilt>\n\t\t\t\t<range>206.1914177482452</range>\n\t\t\t\t<gx:altitudeMode>relativeToSeaFloor</gx:altitudeMode>\n\t\t\t</LookAt>\n\t\t\t<styleUrl>" ++
    pm.styleUrl ++
    "</styleUrl>\n\t\t\t<Point>\n\t\t\t\t<gx:drawOrder>1</gx:drawOrder>\n\t\t\t\t<coordinates>" ++
    pm.coordText ++ "</coordinates>\n\t\t\t</Point>\n\t\t</Placemark>"

/-- `kml_template` up to the `{placemarks}` placeholder (src/app.py:206-264). -/
def kmlTemplateHead : String :=
  "<?xml version=\"1.0\" encoding=\"UTF-8\"?>\n<kml xmlns=\"http://www.opengis.net/kml/2.2\" xmlns:gx=\"http://www.google.com/kml/ext/2.2\" xmlns:kml=\"http://www.opengis.net/kml/2.2\" xmlns:atom=\"http://www.w3.org/2005/Atom\">\n<Document>\n\t<name>length.kml</name>\n\t<StyleMap id=\"m_ylw-pushpin\">\n\t\t<Pair>\n\t\t\t<key>normal</key>\n\t\t\t<styleUrl>#s_ylw-pushpin0</styleUrl>\n\t\t</Pair>\n\t\t<Pair>\n\t\t\t<key>highlight</key>\n\t\t\t<styleUrl>#s_ylw-pushpin_hl</styleUrl>\n\t\t</Pair>\n\t</StyleMap>\n\t<StyleMap id=\"m_ylw-pushpin0\">\n\t\t<Pair>\n\t\t\t<key>normal</key>\n\t\t\t<styleUrl>#s_ylw-pushpin</styleUrl>\n\t\t</Pair>\n\t\t<Pair>\n\t\t\t<key>highlight</key>\n\t\t\t<styleUrl>#s_ylw-pushpin_hl0</styleUrl>\n\t\t</Pair>\n\t</StyleMap>\n\t<Style id=\"s_ylw-pushpin\">\n\t\t<IconStyle>\n\t\t\t<Icon>\n\t\t\t</Icon>\n\t\t</IconStyle>\n\t\t<ListStyle>\n\t\t</ListStyle>\n\t</Style>\n\t<Style id=\"s_ylw-pushpin0\">\n\t\t<IconStyle>\n\t\t\t<Icon>\n\t\t\t</Icon>\n\t\t</IconStyle>\n\t\t<ListStyle>\n\t\t</ListStyle>\n\t</Style>\n\t<Style id=\"s_ylw-pushpin_hl\">\n\t\t<IconStyle>\n\t\t\t<Icon>\n\t\t\t</Icon>\n\t\t</IconStyle>\n\t\t<ListStyle>\n\t\t</ListStyle>\n\t</Style>\n\t<Style id=\"s_ylw-pushpin_hl0\">\n\t\t<IconStyle>\n\t\t\t<Icon>\n\t\t\t</Icon>\n\t\t</IconStyle>\n\t\t<ListStyle>\n\t\t</ListStyle>\n\t</Style>\n\t<Folder>\n\t\t<name>length</name>\n"

/-- `kml_template` after the `{placemarks}` placeholder (src/app.py:264-268). -/
def kmlTemplateTail : String :=
  "\n\t\t<atom:link rel=\"app\" href=\"https://www.google.com/earth/about/versions/#earth-pro\" title=\"Google Earth Pro 7.3.6.10201\"></atom:link>\n\t</Folder>\n</Document>\n</kml>"

/-- `csv_to_kml` (src/app.py:202-296): the fixed template with the joined
placemark strings substituted for `{placemarks}`. -/
def csv_to_kml (rows : List CsvRow) : String :=
  kmlTemplateHead ++
    String.intercalate "\n" ((csv_to_kml_placemarks rows).map renderPlacemark) ++
    kmlTemplateTail

/-- One row's {length, latitude, longitude} triple when fully present, with the
length truncated to an integer as the writer's name rendering does. -/
def rowTriple (r : CsvRow) : Option (ℤ × ℚ × ℚ) :=
  match r.length, r.latitude, r.longitude with
  | some l, some la, some lo => some (pyInt l, la, lo)
  | _, _, _ => none

/-- The fully-present rows' triples of a table. -/
def tableTriples (rows : List CsvRow) : List (ℤ × ℚ × ℚ) :=
  rows.filterMap rowTriple

/-- A rational with a power-of-ten denominator — the value domain of decimal
coordinate text (every IEEE-754 double is such a rational). -/
def IsDec (q : ℚ) : Prop := ∃ k : ℕ, q.den ∣ 10 ^ k

/-- C's `atan2`, as called by `math.atan2(y, x)` (src/app.py:29): the angle of
the point `(x, y)`, in `(-π, π]`. -/
noncomputable def atan2 (y x : ℝ) : ℝ :=
  if 0 < x then Real.arctan (y / x)
  else if x < 0 then
    (if 0 ≤ y then Real.arctan (y / x) + Real.pi
     else Real.arctan (y / x) - Real.pi)
  else
    (if 0 < y then Real.pi / 2 else if y < 0 then -(Real.pi / 2) else 0)

/-- `haversine_distance` (src/app.py:10-31): the haversine great-circle
formula with Earth radius 6371000 m; `math.radians x = x * π / 180`. -/
noncomputable def haversine_distance (lat1 lon1 lat2 lon2 : ℝ) : ℝ :=
  let R : ℝ := 6371000
  let lat1_rad := lat1 * Real.pi / 180
  let lon1_rad := lon1 * Real.pi / 180
  let lat2_rad := lat2 * Real.pi / 180
  let lon2_rad := lon2 * Real.pi / 180
  let dlat := lat2_rad - lat1_rad
  let dlon := lon2_rad - lon1_rad
  let a := Real.sin (dlat / 2) ^ 2 +
    Real.cos lat1_rad * Real.cos lat2_rad * Real.sin (dlon / 2) ^ 2
  let c := 2 * atan2 (Real.sqrt a) (Real.sqrt (1 - a))
  R * c

/-- Python 3 `round` on a float: nearest integer, ties to even
(src/app.py:144). -/
noncomputable def pyRound (x : ℝ) : ℤ :=
  if Int.fract x < 1 / 2 then ⌊x⌋
  else if 1 / 2 < Int.fract x then ⌊x⌋ + 1
  else if 2 ∣ ⌊x⌋ then ⌊x⌋ else ⌊x⌋ + 1

/-- One row of the table built by `kml_to_csv` (src/app.py:130-136): the point
itself plus the derived fields, which are a true null (`None`) on the last
row. -/
structure RouteRow where
  latitude : ℝ
  longitude : ℝ
  length : Option ℤ
  latitude_mid : Option ℝ
  longitude_mid : Option ℝ

/-- The row loop of `kml_to_csv` (src/app.py:116-152): one row per coordinate;
every row but the last carries `round(haversine_distance(...))` to the next
point and the arithmetic midpoint of the two points; the empty sequence gives
the empty table. -/
noncomputable def build_table : List (ℝ × ℝ) → List RouteRow
  | [] => []
  | [(lat, lon)] => [⟨lat, lon, none, none, none⟩]
  | (lat, lon) :: next :: rest =>
    ⟨lat, lon,
      some (pyRound (haversine_distance lat lon next.1 next.2)),
      some ((lat + next.1) / 2), some ((lon + next.2) / 2)⟩ ::
      build_table (next :: rest)

/-- Modelled from the spec (§4.1: the midpoint is "NOT the true great-circle
midpoint"): the latitude of the true great-circle midpoint of two points given
in radians, by the standard formula; present only to witness that the code's
arithmetic mean differs from it. -/
noncomputable def greatCircleMidLat (lat1 lon1 lat2 lon2 : ℝ) : ℝ :=
  let bx := Real.cos lat2 * Real.cos (lon2 - lon1)
  let bY := Real.cos lat2 * Real.sin (lon2 - lon1)
  atan2 (Real.sin lat1 + Real.sin lat2)
    (Real.sqrt ((Real.cos lat1 + bx) ^ 2 + bY ^ 2))

-- ===== DEFINITIONS CONTINUE ABOVE; THEOREMS BELOW =====

lemma coords_fold_abort :
    ∀ (pre : List (Option String)) (acc : List (ℚ × ℚ)) (post : List (Option String)),
      List.foldlM coordStep acc (pre ++ none :: post) = none := by
  intro pre
  induction pre with
  | nil =>
    intro acc post
    rw [List.nil_append, List.foldlM_cons]
    rfl
  | cons x pre ih =>
    intro acc post
    rw [List.cons_append, List.foldlM_cons]
    cases x with
    | none => rfl
    | some t =>
      show List.foldlM coordStep (acc ++ tokenizeCoords t) (pre ++ none :: post) = none
      exact ih _ _

lemma processPlacemark_skip (s : List (String × List (ℚ × ℚ))) (pm : Placemark)
    (h : pm.lineString = none ∨ pm.lineString = some none ∨
      ∃ t, pm.lineString = some (some (some t)) ∧ tokenizeCoords t = []) :
    processPlacemark s pm = some s := by
  rcases h with h | h | ⟨t, h, ht⟩
  · simp [processPlacemark, h]
  · simp [processPlacemark, h]
  · simp [processPlacemark, h, ht]

lemma process_named (s : List (String × List (ℚ × ℚ))) (nm t : String)
    (a : ℚ × ℚ) (l : List (ℚ × ℚ)) (hc : tokenizeCoords t = a :: l) :
    processPlacemark s (Placemark.mk (some (some nm)) (some (some (some t)))) =
      some (dictInsert s (cleanName nm) (tokenizeCoords t)) := by
  simp [processPlacemark, pmRouteName, hc]

lemma dictInsert_nil (k : String) (v : List (ℚ × ℚ)) :
    dictInsert [] k v = [(k, v)] := by
  simp [dictInsert]

lemma dictInsert_new (m : List (String × List (ℚ × ℚ))) (k : String) (v : List (ℚ × ℚ))
    (h : m.any (fun p => p.1 == k) = false) : dictInsert m k v = m ++ [(k, v)] := by
  simp [dictInsert, h]

lemma dictInsert_overwrite_singleton (k : String) (v1 v2 : List (ℚ × ℚ)) :
    dictInsert [(k, v1)] k v2 = [(k, v2)] := by
  simp [dictInsert]

lemma parse_two_named (n1 n2 t1 t2 : String) (a : ℚ × ℚ) (l1 : List (ℚ × ℚ))
    (b : ℚ × ℚ) (l2 : List (ℚ × ℚ))
    (hc1 : tokenizeCoords t1 = a :: l1) (hc2 : tokenizeCoords t2 = b :: l2) :
    parse_kml_multi_routes (some
        [Placemark.mk (some (some n1)) (some (some (some t1))),
         Placemark.mk (some (some n2)) (some (some (some t2)))]) =
      dictInsert (dictInsert [] (cleanName n1) (tokenizeCoords t1))
        (cleanName n2) (tokenizeCoords t2) := by
  show (List.foldlM processPlacemark []
      [Placemark.mk (some (some n1)) (some (some (some t1))),
       Placemark.mk (some (some n2)) (some (some (some t2)))]).getD [] = _
  rw [List.foldlM_cons, process_named _ _ _ _ _ hc1]
  show (List.foldlM processPlacemark
    (dictInsert [] (cleanName n1) (tokenizeCoords t1)) [_]).getD [] = _
  rw [List.foldlM_cons, process_named _ _ _ _ _ hc2]
  rfl

lemma dictInsert_key_mem {m : List (String × List (ℚ × ℚ))} {k : String}
    {v : List (ℚ × ℚ)} {k' : String} {v' : List (ℚ × ℚ)}
    (h : (k', v') ∈ dictInsert m k v) : k' = k ∨ ∃ w, (k', w) ∈ m := by
  unfold dictInsert at h
  by_cases ha : m.any (fun p => p.1 == k)
  · rw [if_pos ha] at h
    obtain ⟨p, hp, he⟩ := List.mem_map.mp h
    by_cases hk : p.1 == k
    · rw [if_pos hk] at he
      cases he
      exact Or.inl rfl
    · rw [if_neg hk] at he
      exact Or.inr ⟨v', he ▸ hp⟩
  · rw [if_neg ha] at h
    rcases List.mem_append.mp h with h | h
    · exact Or.inr ⟨v', h⟩
    · left
      simpa using congrArg Prod.fst (List.mem_singleton.mp h)

lemma routes_key_from :
    ∀ (pms : List Placemark) (init res : List (String × List (ℚ × ℚ))),
      List.foldlM processPlacemark init pms = some res →
      ∀ k v, (k, v) ∈ res →
        (∃ w, (k, w) ∈ init) ∨
        ∃ pm ∈ pms, ∃ nm, pmRouteName pm = some nm ∧ k = cleanName nm := by
  intro pms
  induction pms with
  | nil =>
    intro init res h k v hm
    rw [List.foldlM_nil] at h
    cases h
    exact Or.inl ⟨v, hm⟩
  | cons pm pms ih =>
    intro init res h k v hm
    rw [List.foldlM_cons] at h
    cases hstep : processPlacemark init pm with
    | none =>
      rw [hstep] at h
      cases h
    | some mid =>
      rw [hstep] at h
      have hfold : List.foldlM processPlacemark mid pms = some res := h
      rcases ih mid res hfold k v hm with hin | ⟨pm', hpm', nm, hnm, hk⟩
      · rcases hL : pm.lineString with _ | hL2
        · simp [processPlacemark, hL] at hstep
          exact hstep ▸ Or.inl hin
        · rcases hL2 with _ | hL3
          · simp [processPlacemark, hL] at hstep
            exact hstep ▸ Or.inl hin
          · rcases hL3 with _ | t
            · simp [processPlacemark, hL] at hstep
            · by_cases hemp : (tokenizeCoords t).isEmpty
              · simp [processPlacemark, hL, hemp] at hstep
                exact hstep ▸ Or.inl hin
              · cases hn : pmRouteName pm with
                | none => simp [processPlacemark, hL, hemp, hn] at hstep
                | some nm =>
                  simp [processPlacemark, hL, hemp, hn] at hstep
                  obtain ⟨w, hw⟩ := hin
                  rcases dictInsert_key_mem (hstep ▸ hw) with hk | ⟨w', hw'⟩
                  · exact Or.inr ⟨pm, List.mem_cons_self _ _, nm, hn, hk⟩
                  · exact Or.inl ⟨w', hw'⟩
      · exact Or.inr ⟨pm', List.mem_cons_of_mem _ hpm', nm, hnm, hk⟩

/-- C1: the spec's example is wrong about the code.  On the element text
`"10,20,0 11,21,0 badtoken 12,22,0"` the shared tokenizer does NOT yield the
three points (20,10),(21,11),(22,12): the fixed stride-3 grouping makes the
group `(badtoken, 12, 22)` fail as a whole, so only two points survive. -/
theorem C1_three_points_counterexample :
    tokenizeCoords ("10,20,0 11,21,0 badtoken 12,22,0") ≠
      [((20 : ℚ), 10), ((21 : ℚ), 11), ((22 : ℚ), 12)] := by
  decide

/-- C1 (amended): the element text `"10,20,0 11,21,0 badtoken 12,22,0"` yields
exactly the 2 points (20,10),(21,11) — the stride-3 group containing the
malformed token is skipped whole (swallowing the valid `12,22`), extraction of
the earlier valid coordinates is kept and parsing never aborts; the same list
is produced through both `parse_kml_coordinates` and
`parse_kml_multi_routes`. -/
theorem C1_tokenizer_amended :
    tokenizeCoords ("10,20,0 11,21,0 badtoken 12,22,0") =
      [((20 : ℚ), 10), ((21 : ℚ), 11)] ∧
    parse_kml_coordinates (some [some ("10,20,0 11,21,0 badtoken 12,22,0")]) =
      [((20 : ℚ), 10), ((21 : ℚ), 11)] ∧
    parse_kml_multi_routes (some [Placemark.mk (some (some ("R")))
        (some (some (some ("10,20,0 11,21,0 badtoken 12,22,0"))))]) =
      [("R", [((20 : ℚ), 10), ((21 : ℚ), 11)])] :=
  ⟨by decide, by decide, by decide⟩

/-- C5: `parse_kml_multi_routes` visits every placemark; one without a
descendant `LineString`/`coordinates`, or whose coordinate parse yields zero
points, contributes nothing (removing it from any position leaves the result
unchanged); and a placemark lacking a `<name>` child gets the default route
name "Unnamed Route". -/
theorem C5_parse_routes_tolerance :
    (∀ (pre post : List Placemark) (pm : Placemark),
      (pm.lineString = none ∨ pm.lineString = some none ∨
        ∃ t, pm.lineString = some (some (some t)) ∧ tokenizeCoords t = []) →
      parse_kml_multi_routes (some (pre ++ pm :: post)) =
        parse_kml_multi_routes (some (pre ++ post))) ∧
    (∀ t : String, tokenizeCoords t ≠ [] →
      parse_kml_multi_routes (some [Placemark.mk none (some (some (some t)))]) =
        [("Unnamed Route", tokenizeCoords t)]) := by
  constructor
  · intro pre post pm h
    show (List.foldlM processPlacemark [] (pre ++ pm :: post)).getD [] =
      (List.foldlM processPlacemark [] (pre ++ post)).getD []
    rw [List.foldlM_append, List.foldlM_append]
    cases hp : List.foldlM processPlacemark [] pre with
    | none => rfl
    | some s =>
      show (List.foldlM processPlacemark s (pm :: post)).getD [] =
        (List.foldlM processPlacemark s post).getD []
      rw [List.foldlM_cons, processPlacemark_skip s pm h]
      rfl
  · intro t ht
    cases hc : tokenizeCoords t with
    | nil => exact absurd hc ht
    | cons a l =>
      show (List.foldlM processPlacemark [] [_]).getD [] = _
      rw [List.foldlM_cons]
      have hstep : processPlacemark [] (Placemark.mk none (some (some (some t)))) =
          some (dictInsert [] (cleanName ("Unnamed Route")) (tokenizeCoords t)) := by
        simp [processPlacemark, pmRouteName, hc]
      rw [hstep, dictInsert_nil]
      rw [show cleanName ("Unnamed Route") = "Unnamed Route" from by decide, hc]
      rfl

/-- C5 witness: concrete instantiations of both parts. -/
theorem C5_parse_routes_tolerance_witness :
    (parse_kml_multi_routes (some
        ([Placemark.mk (some (some ("A"))) (some (some (some ("1,2,0"))))] ++
          Placemark.mk (some (some ("B"))) none ::
          [Placemark.mk (some (some ("C"))) (some (some (some ("5,6,0"))))])) =
      parse_kml_multi_routes (some
        ([Placemark.mk (some (some ("A"))) (some (some (some ("1,2,0"))))] ++
          [Placemark.mk (some (some ("C"))) (some (some (some ("5,6,0"))))]))) ∧
    (parse_kml_multi_routes (some [Placemark.mk none (some (some (some ("1,2,0"))))]) =
      [("Unnamed Route", tokenizeCoords ("1,2,0"))]) :=
  ⟨C5_parse_routes_tolerance.1 _ _ _ (Or.inl rfl),
   C5_parse_routes_tolerance.2 ("1,2,0") (by decide)⟩

/-- C6: route keys are the placemark names sanitized (`[\\/*?:\[\]<>|]` → `_`)
and truncated to 31 characters: the example names "Trail A" and "Trail/B:1"
give keys "Trail A" and "Trail_B_1"; every key of the result is `cleanName` of
some visited placemark's route name; and when two names collapse to the same
sanitized key the later placemark's coordinates overwrite the earlier. -/
theorem C6_route_keys :
    (∀ t1 t2 : String, tokenizeCoords t1 ≠ [] → tokenizeCoords t2 ≠ [] →
      parse_kml_multi_routes (some
          [Placemark.mk (some (some ("Trail A"))) (some (some (some t1))),
           Placemark.mk (some (some ("Trail/B:1"))) (some (some (some t2)))]) =
        [("Trail A", tokenizeCoords t1), ("Trail_B_1", tokenizeCoords t2)]) ∧
    (∀ (pms : List Placemark) (k : String) (v : List (ℚ × ℚ)),
      (k, v) ∈ parse_kml_multi_routes (some pms) →
      ∃ pm ∈ pms, ∃ nm, pmRouteName pm = some nm ∧ k = cleanName nm) ∧
    (∀ n1 n2 t1 t2 : String, cleanName n1 = cleanName n2 →
      tokenizeCoords t1 ≠ [] → tokenizeCoords t2 ≠ [] →
      parse_kml_multi_routes (some
          [Placemark.mk (some (some n1)) (some (some (some t1))),
           Placemark.mk (some (some n2)) (some (some (some t2)))]) =
        [(cleanName n1, tokenizeCoords t2)]) := by
  refine ⟨?_, ?_, ?_⟩
  · intro t1 t2 h1 h2
    cases hc1 : tokenizeCoords t1 with
    | nil => exact absurd hc1 h1
    | cons a l1 =>
      cases hc2 : tokenizeCoords t2 with
      | nil => exact absurd hc2 h2
      | cons b l2 =>
        have hany : List.any [("Trail A", tokenizeCoords t1)]
            (fun p => p.1 == ("Trail_B_1" : String)) = false := by
          show (("Trail A" : String) == "Trail_B_1" || false) = false
          decide
        rw [parse_two_named _ _ _ _ _ _ _ _ hc1 hc2, dictInsert_nil,
          show cleanName ("Trail A") = "Trail A" from by decide,
          show cleanName ("Trail/B:1") = "Trail_B_1" from by decide,
          dictInsert_new _ _ _ hany, hc1, hc2]
        rfl
  · intro pms k v hm
    have hm' : (k, v) ∈ (List.foldlM processPlacemark [] pms).getD [] := hm
    cases hf : List.foldlM processPlacemark [] pms with
    | none =>
      rw [hf] at hm'
      exact (List.not_mem_nil _ hm').elim
    | some res =>
      rw [hf] at hm'
      rcases routes_key_from pms [] res hf k v hm' with ⟨w, hw⟩ | h
      · cases hw
      · exact h
  · intro n1 n2 t1 t2 hcl h1 h2
    cases hc1 : tokenizeCoords t1 with
    | nil => exact absurd hc1 h1
    | cons a l1 =>
      cases hc2 : tokenizeCoords t2 with
      | nil => exact absurd hc2 h2
      | cons b l2 =>
        rw [parse_two_named _ _ _ _ _ _ _ _ hc1 hc2, dictInsert_nil, ← hcl,
          dictInsert_overwrite_singleton, hc2]

/-- C6 witness: concrete instantiations of all three parts. -/
theorem C6_route_keys_witness :
    (parse_kml_multi_routes (some
        [Placemark.mk (some (some ("Trail A"))) (some (some (some ("1,2,0")))),
         Placemark.mk (some (some ("Trail/B:1"))) (some (some (some ("3,4,0"))))]) =
      [("Trail A", tokenizeCoords ("1,2,0")), ("Trail_B_1", tokenizeCoords ("3,4,0"))]) ∧
    (∃ pm ∈ [Placemark.mk (some (some ("N*1"))) (some (some (some ("1,2,0"))))],
      ∃ nm, pmRouteName pm = some nm ∧ "N_1" = cleanName nm) ∧
    (parse_kml_multi_routes (some
        [Placemark.mk (some (some ("X/Y"))) (some (some (some ("1,2,0")))),
         Placemark.mk (some (some ("X:Y"))) (some (some (some ("3,4,0"))))]) =
      [(cleanName ("X/Y"), tokenizeCoords ("3,4,0"))]) :=
  ⟨C6_route_keys.1 _ _ (by decide) (by decide),
   C6_route_keys.2.1 _ "N_1" (tokenizeCoords ("1,2,0")) (by decide),
   C6_route_keys.2.2 ("X/Y") ("X:Y") _ _ (by decide) (by decide) (by decide)⟩

/-- C9: when the input is not well-formed XML (`ET.fromstring` raises, modelled
by the `none` document), both readers catch the exception and return the empty
result. -/
theorem C9_malformed_empty :
    parse_kml_coordinates none = [] ∧ parse_kml_multi_routes none = [] :=
  ⟨rfl, rfl⟩

/-- C10: a `<coordinates>` element with no text at all makes
`coord_elem.text.strip()` raise, and the exception handler discards everything:
whatever valid elements precede or follow it, `parse_kml_coordinates` returns
the empty sequence. -/
theorem C10_textless_coordinates_abort :
    ∀ (pre post : List (Option String)),
      parse_kml_coordinates (some (pre ++ none :: post)) = [] := by
  intro pre post
  show (List.foldlM coordStep [] (pre ++ none :: post)).getD [] = []
  rw [coords_fold_abort]
  rfl

lemma digitsLE_eq : ∀ (fuel n : ℕ), n ≤ fuel → digitsLE fuel n = Nat.digits 10 n := by
  intro fuel
  induction fuel with
  | zero =>
    intro n h
    have : n = 0 := Nat.le_zero.mp h
    subst this
    simp [digitsLE]
  | succ fuel ih =>
    intro n h
    by_cases hn : n = 0
    · subst hn
      simp [digitsLE]
    · have hdiv : n / 10 < n := Nat.div_lt_self (Nat.pos_of_ne_zero hn) (by norm_num)
      rw [show digitsLE (fuel + 1) n = if n = 0 then [] else n % 10 :: digitsLE fuel (n / 10)
        from rfl, if_neg hn, ih (n / 10) (by omega),
        Nat.digits_def' (by norm_num : 1 < 10) (Nat.pos_of_ne_zero hn)]

lemma decDigits_eq (n : ℕ) : decDigits n = Nat.digits 10 n :=
  digitsLE_eq n n le_rfl

lemma digitVal_charOfDigit : ∀ d : ℕ, d < 10 → digitVal? (charOfDigit d) = some d := by
  decide

lemma charOfDigit_props : ∀ d : ℕ, d < 10 →
    ((charOfDigit d == '-') = false ∧ (charOfDigit d == '+') = false ∧
      isSep (charOfDigit d) = false) := by
  decide

lemma takeDigits_append (ds : List ℕ) (rest : List Char)
    (h : ∀ d ∈ ds, d < 10)
    (hr : rest = [] ∨ ∃ c cs, rest = c :: cs ∧ digitVal? c = none) :
    takeDigits (ds.map charOfDigit ++ rest) = (ds, rest) := by
  induction ds with
  | nil =>
    rcases hr with rfl | ⟨c, cs, rfl, hc⟩
    · rfl
    · simp [takeDigits, hc]
  | cons d ds ih =>
    have hd := digitVal_charOfDigit d (h d (List.mem_cons_self _ _))
    simp [takeDigits, hd, ih (fun x hx => h x (List.mem_cons_of_mem _ hx))]

lemma digitsVal_acc : ∀ (l : List ℕ) (a : ℕ),
    l.foldl (fun x d => x * 10 + d) a = a * 10 ^ l.length + digitsVal l := by
  intro l
  induction l with
  | nil => intro a; simp [digitsVal]
  | cons d l ih =>
    intro a
    show l.foldl _ (a * 10 + d) = a * 10 ^ (d :: l).length + digitsVal (d :: l)
    rw [ih]
    have hh : digitsVal (d :: l) = d * 10 ^ l.length + digitsVal l := by
      show l.foldl _ (0 * 10 + d) = _
      rw [ih]
      ring
    rw [hh, List.length_cons]
    ring

lemma digitsVal_reverse : ∀ L : List ℕ, digitsVal L.reverse = Nat.ofDigits 10 L := by
  intro L
  induction L with
  | nil => rfl
  | cons d L ih =>
    rw [List.reverse_cons]
    unfold digitsVal
    rw [List.foldl_append]
    show List.foldl _ (digitsVal L.reverse) [d] = _
    rw [ih]
    show (Nat.ofDigits 10 L) * 10 + d = _
    rw [Nat.ofDigits_cons]
    ring

lemma digitsVal_rep_zero : ∀ (j : ℕ) (l : List ℕ),
    digitsVal (List.replicate j 0 ++ l) = digitsVal l := by
  intro j
  induction j with
  | zero => intro l; rfl
  | succ j ih =>
    intro l
    rw [List.replicate_succ, List.cons_append]
    show (List.replicate j 0 ++ l).foldl _ (0 * 10 + 0) = digitsVal l
    exact ih l

lemma digits_all_lt (n : ℕ) : ∀ d ∈ Nat.digits 10 n, d < 10 := fun _ hd =>
  Nat.digits_lt_base (by norm_num) hd

lemma digits_len_le_of_lt_pow {F k : ℕ} (h : F < 10 ^ k) :
    (Nat.digits 10 F).length ≤ k := by
  rcases eq_or_ne F 0 with rfl | hF
  · simp
  · rw [Nat.digits_len 10 F (by norm_num) hF]
    have := (Nat.lt_pow_iff_log_lt (by norm_num : 1 < 10) hF).mp h
    omega

lemma natDigitsOr0_lt (n : ℕ) : ∀ d ∈ natDigitsOr0 n, d < 10 := by
  intro d hd
  unfold natDigitsOr0 at hd
  split at hd
  · simp at hd
    omega
  · rw [decDigits_eq] at hd
    exact digits_all_lt n d (List.mem_reverse.mp hd)

lemma fracDigits_lt (k m : ℕ) : ∀ d ∈ fracDigits k m, d < 10 := by
  intro d hd
  unfold fracDigits at hd
  split at hd
  · simp at hd
    omega
  · rcases List.mem_append.mp hd with hd | hd
    · have := List.eq_of_mem_replicate hd
      omega
    · rw [decDigits_eq] at hd
      exact digits_all_lt _ d (List.mem_reverse.mp hd)

lemma natDigitsOr0_ne_nil (n : ℕ) : natDigitsOr0 n ≠ [] := by
  unfold natDigitsOr0
  split
  · simp
  · rw [decDigits_eq]
    simp [Nat.digits_ne_nil_iff_ne_zero, *]

lemma digitsVal_natDigitsOr0 (n : ℕ) : digitsVal (natDigitsOr0 n) = n := by
  unfold natDigitsOr0
  split
  · subst ‹n = 0›
    rfl
  · rw [decDigits_eq, digitsVal_reverse, Nat.ofDigits_digits]

lemma digitsVal_fracDigits (k m : ℕ) : digitsVal (fracDigits k m) = m % 10 ^ k := by
  unfold fracDigits
  split
  · subst ‹k = 0›
    simp [digitsVal, Nat.mod_one]
  · rw [digitsVal_rep_zero, decDigits_eq, digitsVal_reverse, Nat.ofDigits_digits]

lemma fracDigits_length (k m : ℕ) (hk : k ≠ 0) : (fracDigits k m).length = k := by
  unfold fracDigits
  rw [if_neg hk]
  have hlt : m % 10 ^ k < 10 ^ k := Nat.mod_lt _ (by positivity)
  have hlen : (Nat.digits 10 (m % 10 ^ k)).length ≤ k := digits_len_le_of_lt_pow hlt
  rw [List.length_append, List.length_replicate, List.length_reverse, decDigits_eq]
  omega

lemma dvd_ten_pow_self : ∀ d : ℕ, (∃ j, d ∣ 10 ^ j) → d ∣ 10 ^ d := by
  intro d
  induction d using Nat.strong_induction_on with
  | _ d ih =>
    rintro ⟨j, hj⟩
    rcases eq_or_ne d 0 with rfl | hd0
    · exact absurd (Nat.eq_zero_of_zero_dvd hj) (by positivity)
    rcases eq_or_ne d 1 with rfl | hd1
    · exact one_dvd _
    have hp : d.minFac.Prime := Nat.minFac_prime hd1
    have hpd : d.minFac ∣ d := Nat.minFac_dvd d
    have hp10 : d.minFac ∣ 10 := hp.dvd_of_dvd_pow (hpd.trans hj)
    have he : d = d.minFac * (d / d.minFac) := (Nat.mul_div_cancel' hpd).symm
    have hlt : d / d.minFac < d :=
      Nat.div_lt_self (Nat.pos_of_ne_zero hd0) hp.one_lt
    have hed : d / d.minFac ∣ 10 ^ j := (Dvd.intro_left _ he.symm).trans hj
    have hih : d / d.minFac ∣ 10 ^ (d / d.minFac) := ih _ hlt ⟨j, hed⟩
    calc d = d.minFac * (d / d.minFac) := he
    _ ∣ 10 * 10 ^ (d / d.minFac) := mul_dvd_mul hp10 hih
    _ = 10 ^ (d / d.minFac + 1) := by ring
    _ ∣ 10 ^ d := pow_dvd_pow 10 (by omega)

lemma decExp_dvd (d : ℕ) (h : ∃ j, d ∣ 10 ^ j) : d ∣ 10 ^ decExp d := by
  have hd := dvd_ten_pow_self d h
  have hsome : (((List.range (d + 1)).find? fun k => decide (d ∣ 10 ^ k))).isSome := by
    rw [List.find?_isSome]
    exact ⟨d, List.mem_range.mpr (Nat.lt_succ_self _), by simpa using hd⟩
  obtain ⟨k, hk⟩ := Option.isSome_iff_exists.mp hsome
  have hp := List.find?_some hk
  unfold decExp
  rw [hk]
  simpa using hp

lemma signSplit_neg (r : List Char) : signSplit ('-' :: r) = (-1, r) := rfl

lemma signSplit_plain (c : Char) (r : List Char)
    (h1 : (c == '-') = false) (h2 : (c == '+') = false) :
    signSplit (c :: r) = (1, c :: r) := by
  simp [signSplit, h1, h2]

lemma pyFloatTail_digits (sgn : ℤ) (intDs fracDs : List ℕ)
    (hint : ∀ d ∈ intDs, d < 10) (hfrac : ∀ d ∈ fracDs, d < 10)
    (hne : intDs ≠ []) :
    pyFloatTail sgn (intDs.map charOfDigit ++ '.' :: fracDs.map charOfDigit) =
      some (mkRat (sgn * (digitsVal intDs * 10 ^ fracDs.length + digitsVal fracDs))
        (10 ^ fracDs.length)) := by
  have htake1 : takeDigits (intDs.map charOfDigit ++ '.' :: fracDs.map charOfDigit) =
      (intDs, '.' :: fracDs.map charOfDigit) :=
    takeDigits_append _ _ hint (Or.inr ⟨'.', _, rfl, by decide⟩)
  have htake2 : takeDigits (fracDs.map charOfDigit) = (fracDs, []) := by
    simpa using takeDigits_append fracDs [] hfrac (Or.inl rfl)
  have hlen : (takeDigits (fracDs.map charOfDigit)).1.length = fracDs.length := by
    rw [htake2]
  cases intDs with
  | nil => exact absurd rfl hne
  | cons d0 ds =>
    simp only [pyFloatTail, htake1, htake2]
    rfl

lemma mkRat_eq_self (z : ℤ) (n : ℕ) (q : ℚ) (hn : n ≠ 0)
    (h : z * (q.den : ℤ) = q.num * (n : ℤ)) : mkRat z n = q := by
  rw [Rat.mkRat_eq_div]
  have hn' : ((n : ℚ)) ≠ 0 := by exact_mod_cast hn
  have hden : ((q.den : ℚ)) ≠ 0 := by exact_mod_cast q.den_pos.ne'
  rw [div_eq_iff hn']
  conv_rhs => rw [← Rat.num_div_den q]
  rw [div_mul_eq_mul_div, eq_div_iff hden]
  exact_mod_cast h

lemma pyFloatCore_renderDigits (sgnNeg : Bool) (intDs fracDs : List ℕ)
    (hint : ∀ d ∈ intDs, d < 10) (hfrac : ∀ d ∈ fracDs, d < 10)
    (hne : intDs ≠ []) :
    pyFloatCore (renderDigits sgnNeg intDs fracDs) =
      some (mkRat ((if sgnNeg then -1 else 1) *
          (digitsVal intDs * 10 ^ fracDs.length + digitsVal fracDs))
        (10 ^ fracDs.length)) := by
  obtain ⟨d0, ds, rfl⟩ : ∃ d0 ds, intDs = d0 :: ds := by
    cases intDs with
    | nil => exact absurd rfl hne
    | cons a l => exact ⟨a, l, rfl⟩
  have hd0 := hint d0 (List.mem_cons_self _ _)
  obtain ⟨hm1, hm2, _⟩ := charOfDigit_props d0 hd0
  cases sgnNeg with
  | true =>
    show pyFloatCore ('-' ::
      ((d0 :: ds).map charOfDigit ++ '.' :: fracDs.map charOfDigit)) = _
    unfold pyFloatCore
    rw [signSplit_neg]
    exact pyFloatTail_digits _ _ _ hint hfrac hne
  | false =>
    show pyFloatCore (charOfDigit d0 ::
      (ds.map charOfDigit ++ '.' :: fracDs.map charOfDigit)) = _
    unfold pyFloatCore
    rw [signSplit_plain _ _ hm1 hm2]
    exact pyFloatTail_digits _ _ _ hint hfrac hne

lemma pyFloat_qRender_aux (q : ℚ) (k m : ℕ)
    (hk : q.den ∣ 10 ^ k) (hm : m * q.den = q.num.natAbs * 10 ^ k) :
    pyFloatCore (renderDigits (decide (q.num < 0)) (natDigitsOr0 (m / 10 ^ k))
      (fracDigits k m)) = some q := by
  rw [pyFloatCore_renderDigits _ _ _ (natDigitsOr0_lt _) (fracDigits_lt _ _)
    (natDigitsOr0_ne_nil _)]
  congr 1
  rw [digitsVal_natDigitsOr0, digitsVal_fracDigits]
  rcases eq_or_ne k 0 with rfl | hk0
  · have hden : q.den = 1 := Nat.dvd_one.mp (by simpa using hk)
    have hm' : m = q.num.natAbs := by simpa [hden] using hm
    rw [show (fracDigits 0 m).length = 1 from rfl]
    apply mkRat_eq_self _ _ _ (by norm_num)
    rw [hden]
    rcases lt_or_le q.num 0 with hq | hq
    · rw [decide_eq_true hq, if_pos rfl]
      push_cast
      omega
    · rw [decide_eq_false (not_lt.mpr hq), if_neg (by decide)]
      push_cast
      omega
  · rw [fracDigits_length _ _ hk0]
    apply mkRat_eq_self _ _ _ (by positivity)
    have hdm : m / 10 ^ k * 10 ^ k + m % 10 ^ k = m := by
      rw [Nat.mul_comm]
      exact Nat.div_add_mod m (10 ^ k)
    have hab : ((m / 10 ^ k : ℕ) : ℤ) * (10 : ℤ) ^ k + ((m % 10 ^ k : ℕ) : ℤ) =
        (m : ℤ) := by exact_mod_cast hdm
    have hmz : (m : ℤ) * q.den = (q.num.natAbs : ℤ) * (10 : ℤ) ^ k := by
      exact_mod_cast hm
    rcases lt_or_le q.num 0 with hq | hq
    · rw [decide_eq_true hq, if_pos rfl]
      have hnum : (q.num.natAbs : ℤ) = -q.num := by omega
      simp only [Nat.cast_pow, Nat.cast_ofNat]
      linear_combination (-(q.den : ℤ)) * hab - hmz - ((10 : ℤ) ^ k) * hnum
    · rw [decide_eq_false (not_lt.mpr hq), if_neg (by decide)]
      have hnum : (q.num.natAbs : ℤ) = q.num := by omega
      simp only [Nat.cast_pow, Nat.cast_ofNat]
      linear_combination ((q.den : ℤ)) * hab + hmz + ((10 : ℤ) ^ k) * hnum

lemma pyFloat_qRender (q : ℚ) (h : IsDec q) : pyFloat? (qRender q) = some q := by
  have hk := decExp_dvd q.den h
  have hm : q.num.natAbs * 10 ^ decExp q.den / q.den * q.den =
      q.num.natAbs * 10 ^ decExp q.den :=
    Nat.div_mul_cancel (hk.mul_left _)
  exact pyFloat_qRender_aux q (decExp q.den) _ hk hm

lemma dropWhile_no {p : Char → Bool} (l : List Char) (h : ∀ c ∈ l, p c = false) :
    l.dropWhile p = l := by
  cases l with
  | nil => rfl
  | cons c cs =>
    rw [List.dropWhile_cons, h c (List.mem_cons_self _ _)]
    simp

lemma pyStrip_eq (s : String) (h : ∀ c ∈ s.data, isPyWs c = false) :
    pyStrip s = s := by
  unfold pyStrip
  rw [dropWhile_no s.data h,
    dropWhile_no s.data.reverse (fun c hc => h c (List.mem_reverse.mp hc)),
    List.reverse_reverse]

lemma isSep_false_ws {c : Char} (h : isSep c = false) : isPyWs c = false := by
  unfold isSep at h
  exact (Bool.or_eq_false_iff.mp h).2

lemma splitGo_nonsep : ∀ (l : List Char), (∀ c ∈ l, isSep c = false) →
    ∀ (cs cur : List Char),
      splitGo (l ++ cs) cur false = splitGo cs (l.reverse ++ cur) false := by
  intro l
  induction l with
  | nil => intro h cs cur; simp
  | cons c l ih =>
    intro h cs cur
    have hc := h c (List.mem_cons_self _ _)
    rw [List.cons_append]
    rw [show splitGo (c :: (l ++ cs)) cur false =
        if isSep c then
          (if false then splitGo (l ++ cs) [] true
           else String.mk cur.reverse :: splitGo (l ++ cs) [] true)
        else splitGo (l ++ cs) (c :: cur) false from rfl, hc,
      if_neg (by decide : ¬ (false = true))]
    rw [ih (fun x hx => h x (List.mem_cons_of_mem _ hx)) cs (c :: cur),
      List.reverse_cons, List.append_assoc]
    rfl

lemma splitGo_sep_cons (c : Char) (cs cur : List Char) (h : isSep c = true) :
    splitGo (c :: cs) cur false = String.mk cur.reverse :: splitGo cs [] true := by
  simp [splitGo, h]

lemma splitGo_nonsep_cons_run (c : Char) (cs : List Char) (h : isSep c = false) :
    splitGo (c :: cs) [] true = splitGo cs [c] false := by
  simp [splitGo, h]

lemma splitGo_triple (A B : List Char)
    (hA : ∀ c ∈ A, isSep c = false) (hB : ∀ c ∈ B, isSep c = false)
    (hBne : B ≠ []) :
    splitGo (A ++ ',' :: (B ++ [',', '0'])) [] false =
      [String.mk A, String.mk B, "0"] := by
  rw [splitGo_nonsep A hA, splitGo_sep_cons _ _ _ (by decide)]
  obtain ⟨b, B', rfl⟩ : ∃ b B', B = b :: B' := by
    cases B with
    | nil => exact absurd rfl hBne
    | cons x xs => exact ⟨x, xs, rfl⟩
  have hb := hB b (List.mem_cons_self _ _)
  rw [show (b :: B') ++ [',', '0'] = b :: (B' ++ [',', '0']) from rfl,
    splitGo_nonsep_cons_run _ _ hb,
    splitGo_nonsep B' (fun x hx => hB x (List.mem_cons_of_mem _ hx)),
    splitGo_sep_cons _ _ _ (by decide),
    splitGo_nonsep_cons_run _ _ (by decide)]
  rw [show splitGo ([] : List Char) ['0'] false = [String.mk ['0']] from rfl]
  simp [List.reverse_append]

lemma renderDigits_no_sep (b : Bool) (intDs fracDs : List ℕ)
    (h1 : ∀ d ∈ intDs, d < 10) (h2 : ∀ d ∈ fracDs, d < 10) :
    ∀ c ∈ renderDigits b intDs fracDs, isSep c = false := by
  intro c hc
  unfold renderDigits at hc
  rcases List.mem_append.mp hc with hc | hc
  · rcases List.mem_append.mp hc with hc | hc
    · cases b with
      | true =>
        rw [if_pos rfl] at hc
        rcases List.mem_singleton.mp hc with rfl
        decide
      | false =>
        rw [if_neg (by decide)] at hc
        cases hc
    · obtain ⟨d, hd, rfl⟩ := List.mem_map.mp hc
      exact (charOfDigit_props d (h1 d hd)).2.2
  · rcases List.mem_cons.mp hc with rfl | hc
    · decide
    · obtain ⟨d, hd, rfl⟩ := List.mem_map.mp hc
      exact (charOfDigit_props d (h2 d hd)).2.2

lemma qRender_no_sep (q : ℚ) : ∀ c ∈ (qRender q).data, isSep c = false := by
  intro c hc
  exact renderDigits_no_sep _ _ _ (natDigitsOr0_lt _) (fracDigits_lt _ _) c hc

lemma qRender_ne_nil (q : ℚ) : (qRender q).data ≠ [] := by
  show renderDigits _ _ _ ≠ []
  unfold renderDigits
  simp

lemma tokenizeCoords_pair (la lo : ℚ) (h1 : IsDec la) (h2 : IsDec lo) :
    tokenizeCoords (qRender lo ++ "," ++ qRender la ++ ",0") = [(la, lo)] := by
  have hdata : (qRender lo ++ "," ++ qRender la ++ ",0").data =
      (qRender lo).data ++ ',' :: ((qRender la).data ++ [',', '0']) := by
    rw [String.data_append, String.data_append, String.data_append]
    show (qRender lo).data ++ [','] ++ (qRender la).data ++ [',', '0'] = _
    simp
  have hws : ∀ c ∈ (qRender lo ++ "," ++ qRender la ++ ",0").data,
      isPyWs c = false := by
    intro c hc
    rw [hdata] at hc
    rcases List.mem_append.mp hc with hc | hc
    · exact isSep_false_ws (qRender_no_sep lo c hc)
    · rcases List.mem_cons.mp hc with rfl | hc
      · decide
      · rcases List.mem_append.mp hc with hc | hc
        · exact isSep_false_ws (qRender_no_sep la c hc)
        · rcases List.mem_cons.mp hc with rfl | hc
          · decide
          · rcases List.mem_cons.mp hc with rfl | hc
            · decide
            · cases hc
  unfold tokenizeCoords
  rw [pyStrip_eq _ hws]
  unfold reSplit
  rw [hdata,
    splitGo_triple _ _ (qRender_no_sep lo) (qRender_no_sep la) (qRender_ne_nil la)]
  have hplo := pyFloat_qRender lo h2
  have hpla := pyFloat_qRender la h1
  rw [show String.mk (qRender lo).data = qRender lo from rfl,
    show String.mk (qRender la).data = qRender la from rfl]
  simp [parseTriples, hplo, hpla]

lemma join_singletons {α β : Type} (f : α → β) : ∀ l : List α,
    ((l.map fun x => [f x]).flatten) = l.map f := by
  intro l
  induction l with
  | nil => rfl
  | cons a l ih => simp [ih]

lemma parse_some_texts : ∀ (ts : List String) (acc : List (ℚ × ℚ)),
    List.foldlM coordStep acc (ts.map some) =
      some (acc ++ (ts.map tokenizeCoords).flatten) := by
  intro ts
  induction ts with
  | nil => intro acc; simp [List.foldlM_nil]
  | cons t ts ih =>
    intro acc
    rw [List.map_cons, List.foldlM_cons]
    show List.foldlM coordStep (acc ++ tokenizeCoords t) (ts.map some) = _
    rw [ih]
    simp

lemma emit_map_triples : ∀ (rows : List CsvRow) (n : ℕ),
    (∀ r ∈ rows, (∀ x, r.latitude = some x → IsDec x) ∧
      (∀ x, r.longitude = some x → IsDec x)) →
    (((List.enumFrom n rows).filterMap emitRow).map
        fun pm => (pm.name, tokenizeCoords pm.coordText)) =
      (tableTriples rows).map fun x => (intStr x.1, [(x.2.1, x.2.2)]) := by
  intro rows
  induction rows with
  | nil => intro n h; rfl
  | cons r rows ih =>
    intro n h
    have hr := h r (List.mem_cons_self _ _)
    have hrest := fun r' hr' => h r' (List.mem_cons_of_mem _ hr')
    rw [List.enumFrom_cons]
    show ((List.filterMap emitRow ((n, r) :: List.enumFrom (n + 1) rows)).map _) =
      (List.filterMap rowTriple (r :: rows)).map _
    rcases hl : r.length with _ | l
    · rw [List.filterMap_cons_none (by simp [emitRow, hl]),
        List.filterMap_cons_none (by simp [rowTriple, hl])]
      exact ih (n + 1) hrest
    · rcases hla : r.latitude with _ | la
      · rw [List.filterMap_cons_none (by simp [emitRow, hl, hla]),
          List.filterMap_cons_none (by simp [rowTriple, hl, hla])]
        exact ih (n + 1) hrest
      · rcases hlo : r.longitude with _ | lo
        · rw [List.filterMap_cons_none (by simp [emitRow, hl, hla, hlo]),
            List.filterMap_cons_none (by simp [rowTriple, hl, hla, hlo])]
          exact ih (n + 1) hrest
        · rw [List.filterMap_cons_some
              (show emitRow (n, r) = some (mkPlacemark n l la lo) from by
                simp [emitRow, hl, hla, hlo]),
            List.filterMap_cons_some
              (show rowTriple r = some (pyInt l, la, lo) from by
                simp [rowTriple, hl, hla, hlo]),
            List.map_cons, List.map_cons]
          congr 1
          · show ((mkPlacemark n l la lo).name,
              tokenizeCoords (mkPlacemark n l la lo).coordText) = _
            rw [show (mkPlacemark n l la lo).coordText =
                qRender lo ++ "," ++ qRender la ++ ",0" from rfl,
              tokenizeCoords_pair la lo (hr.1 la hla) (hr.2 lo hlo)]
            rfl
          · exact ih (n + 1) hrest

lemma emit_map_coords : ∀ (rows : List CsvRow) (n : ℕ),
    (∀ r ∈ rows, (∀ x, r.latitude = some x → IsDec x) ∧
      (∀ x, r.longitude = some x → IsDec x)) →
    (((List.enumFrom n rows).filterMap emitRow).map
        fun pm => tokenizeCoords pm.coordText) =
      (tableTriples rows).map fun x => [(x.2.1, x.2.2)] := by
  intro rows
  induction rows with
  | nil => intro n h; rfl
  | cons r rows ih =>
    intro n h
    have hr := h r (List.mem_cons_self _ _)
    have hrest := fun r' hr' => h r' (List.mem_cons_of_mem _ hr')
    rw [List.enumFrom_cons]
    show ((List.filterMap emitRow ((n, r) :: List.enumFrom (n + 1) rows)).map _) =
      (List.filterMap rowTriple (r :: rows)).map _
    rcases hl : r.length with _ | l
    · rw [List.filterMap_cons_none (by simp [emitRow, hl]),
        List.filterMap_cons_none (by simp [rowTriple, hl])]
      exact ih (n + 1) hrest
    · rcases hla : r.latitude with _ | la
      · rw [List.filterMap_cons_none (by simp [emitRow, hl, hla]),
          List.filterMap_cons_none (by simp [rowTriple, hl, hla])]
        exact ih (n + 1) hrest
      · rcases hlo : r.longitude with _ | lo
        · rw [List.filterMap_cons_none (by simp [emitRow, hl, hla, hlo]),
            List.filterMap_cons_none (by simp [rowTriple, hl, hla, hlo])]
          exact ih (n + 1) hrest
        · rw [List.filterMap_cons_some
              (show emitRow (n, r) = some (mkPlacemark n l la lo) from by
                simp [emitRow, hl, hla, hlo]),
            List.filterMap_cons_some
              (show rowTriple r = some (pyInt l, la, lo) from by
                simp [rowTriple, hl, hla, hlo]),
            List.map_cons, List.map_cons]
          congr 1
          · show tokenizeCoords (mkPlacemark n l la lo).coordText = _
            rw [show (mkPlacemark n l la lo).coordText =
                qRender lo ++ "," ++ qRender la ++ ",0" from rfl,
              tokenizeCoords_pair la lo (hr.1 la hla) (hr.2 lo hlo)]
          · exact ih (n + 1) hrest

/-- C2: round-trip through the writer.  For a table whose coordinates are
decimal rationals, the emitted placemarks, read back (name text, plus the
coordinate parse of the `<coordinates>` text through the shared tokenizer, or
through `parse_kml_coordinates` on the document's coordinates elements), give
exactly the {truncated length, latitude, longitude} triples of the table's
fully-present rows, in order — nulls dropped, length truncated to an
integer. -/
theorem C2_roundtrip :
    ∀ rows : List CsvRow,
      (∀ r ∈ rows, (∀ x, r.latitude = some x → IsDec x) ∧
        (∀ x, r.longitude = some x → IsDec x)) →
      (((csv_to_kml_placemarks rows).map
          fun pm => (pm.name, tokenizeCoords pm.coordText)) =
        (tableTriples rows).map fun x => (intStr x.1, [(x.2.1, x.2.2)])) ∧
      parse_kml_coordinates (some ((csv_to_kml_placemarks rows).map
          fun pm => some pm.coordText)) =
        (tableTriples rows).map fun x => (x.2.1, x.2.2) := by
  intro rows h
  refine ⟨emit_map_triples rows 0 h, ?_⟩
  have hmm : ((csv_to_kml_placemarks rows).map fun pm => some pm.coordText) =
      ((csv_to_kml_placemarks rows).map fun pm => pm.coordText).map some := by
    rw [List.map_map]
    rfl
  show (List.foldlM coordStep []
      ((csv_to_kml_placemarks rows).map fun pm => some pm.coordText)).getD [] = _
  rw [hmm, parse_some_texts]
  show [] ++ ((((csv_to_kml_placemarks rows).map
      fun pm => pm.coordText).map tokenizeCoords).flatten) = _
  rw [List.nil_append, List.map_map]
  show (((csv_to_kml_placemarks rows).map
      fun pm => tokenizeCoords pm.coordText).flatten) = _
  rw [show csv_to_kml_placemarks rows =
      List.filterMap emitRow (List.enumFrom 0 rows) from rfl,
    emit_map_coords rows 0 h, join_singletons]

/-- C2 witness: a concrete two-row table, one row fully present and one with a
null length. -/
theorem C2_roundtrip_witness :
    (∀ r ∈ [CsvRow.mk (some (mkRat 5 2)) (some (mkRat 21 2)) (some 107),
        CsvRow.mk none (some 1) (some 2)],
      (∀ x, r.latitude = some x → IsDec x) ∧
      (∀ x, r.longitude = some x → IsDec x)) ∧
    ((((csv_to_kml_placemarks
          [CsvRow.mk (some (mkRat 5 2)) (some (mkRat 21 2)) (some 107),
           CsvRow.mk none (some 1) (some 2)]).map
        fun pm => (pm.name, tokenizeCoords pm.coordText)) =
      (tableTriples
          [CsvRow.mk (some (mkRat 5 2)) (some (mkRat 21 2)) (some 107),
           CsvRow.mk none (some 1) (some 2)]).map
        fun x => (intStr x.1, [(x.2.1, x.2.2)])) ∧
    parse_kml_coordinates (some ((csv_to_kml_placemarks
          [CsvRow.mk (some (mkRat 5 2)) (some (mkRat 21 2)) (some 107),
           CsvRow.mk none (some 1) (some 2)]).map
        fun pm => some pm.coordText)) =
      (tableTriples
          [CsvRow.mk (some (mkRat 5 2)) (some (mkRat 21 2)) (some 107),
           CsvRow.mk none (some 1) (some 2)]).map
        fun x => (x.2.1, x.2.2)) := by
  have hyp : ∀ r ∈ [CsvRow.mk (some (mkRat 5 2)) (some (mkRat 21 2)) (some 107),
      CsvRow.mk none (some 1) (some 2)],
      (∀ x, r.latitude = some x → IsDec x) ∧
      (∀ x, r.longitude = some x → IsDec x) := by
    intro r hr
    rcases List.mem_cons.mp hr with rfl | hr2
    · exact ⟨fun x hx => by cases hx; exact ⟨1, by decide⟩,
        fun x hx => by cases hx; exact ⟨0, by decide⟩⟩
    · rcases List.mem_cons.mp hr2 with rfl | h3
      · exact ⟨fun x hx => by cases hx; exact ⟨0, by decide⟩,
          fun x hx => by cases hx; exact ⟨0, by decide⟩⟩
      · cases h3
  exact ⟨hyp, C2_roundtrip _ hyp⟩

lemma emit_length : ∀ (rows : List CsvRow) (n : ℕ),
    ((List.enumFrom n rows).filterMap emitRow).length =
      (rows.filter isFull).length := by
  intro rows
  induction rows with
  | nil => intro n; rfl
  | cons r rows ih =>
    intro n
    rw [List.enumFrom_cons]
    rcases hl : r.length with _ | l
    · rw [List.filterMap_cons_none (by simp [emitRow, hl]),
        List.filter_cons_of_neg (by simp [isFull, hl])]
      exact ih (n + 1)
    · rcases hla : r.latitude with _ | la
      · rw [List.filterMap_cons_none (by simp [emitRow, hl, hla]),
          List.filter_cons_of_neg (by simp [isFull, hla])]
        exact ih (n + 1)
      · rcases hlo : r.longitude with _ | lo
        · rw [List.filterMap_cons_none (by simp [emitRow, hl, hla, hlo]),
            List.filter_cons_of_neg (by simp [isFull, hlo])]
          exact ih (n + 1)
        · rw [List.filterMap_cons_some
              (show emitRow (n, r) = some (mkPlacemark n l la lo) from by
                simp [emitRow, hl, hla, hlo]),
            List.filter_cons_of_pos (by simp [isFull, hl, hla, hlo]),
            List.length_cons, List.length_cons, ih (n + 1)]

lemma emit_mem : ∀ (rows : List CsvRow) (n i : ℕ) (r : CsvRow) (l la lo : ℚ),
    rows.get? i = some r → r.length = some l → r.latitude = some la →
    r.longitude = some lo →
    mkPlacemark (n + i) l la lo ∈ (List.enumFrom n rows).filterMap emitRow := by
  intro rows
  induction rows with
  | nil =>
    intro n i r l la lo h
    simp [List.get?] at h
  | cons r0 rows ih =>
    intro n i r l la lo h hl hla hlo
    rw [List.enumFrom_cons]
    cases i with
    | zero =>
      have h0 : r0 = r := by simpa using h
      subst h0
      rw [List.filterMap_cons_some
        (show emitRow (n, r0) = some (mkPlacemark n l la lo) from by
          simp [emitRow, hl, hla, hlo]), Nat.add_zero]
      exact List.mem_cons_self _ _
    | succ i =>
      have h' : rows.get? i = some r := h
      have hmem := ih (n + 1) i r l la lo h' hl hla hlo
      have harith : n + 1 + i = n + (i + 1) := by omega
      rw [harith] at hmem
      cases he : emitRow (n, r0) with
      | none =>
        rw [List.filterMap_cons_none he]
        exact hmem
      | some pm =>
        rw [List.filterMap_cons_some he]
        exact List.mem_cons_of_mem _ hmem

/-- C4: the writer emits a document whose single Folder holds one placemark
per row with all of {length, latitude, longitude} non-null (null rows silently
dropped): the emitted count equals the count of full rows, every full row at
index `i` contributes its placemark, each placemark's name is the row's length
truncated to an integer and its Point coordinates text is
`longitude,latitude,0`, and the placemark of original index 0 carries a
styleUrl distinct from every other emitted placemark's. -/
theorem C4_writer :
    ∀ rows : List CsvRow,
      (csv_to_kml_folders rows).length = 1 ∧
      (csv_to_kml_placemarks rows).length = (rows.filter isFull).length ∧
      (∀ (i : ℕ) (r : CsvRow) (l la lo : ℚ),
        rows.get? i = some r → r.length = some l → r.latitude = some la →
        r.longitude = some lo →
        mkPlacemark i l la lo ∈ csv_to_kml_placemarks rows) ∧
      (∀ (i : ℕ) (l la lo : ℚ),
        (mkPlacemark i l la lo).name = intStr (pyInt l) ∧
        (mkPlacemark i l la lo).coordText =
          qRender lo ++ "," ++ qRender la ++ ",0" ∧
        (mkPlacemark i l la lo).styleUrl =
          (if i = 0 then "#m_ylw-pushpin0" else "#m_ylw-pushpin")) ∧
      (∀ (i : ℕ) (l la lo l' la' lo' : ℚ), i ≠ 0 →
        (mkPlacemark 0 l la lo).styleUrl ≠ (mkPlacemark i l' la' lo').styleUrl) := by
  intro rows
  refine ⟨rfl, emit_length rows 0, ?_, fun i l la lo => ⟨rfl, rfl, rfl⟩, ?_⟩
  · intro i r l la lo hget hl hla hlo
    have hmem := emit_mem rows 0 i r l la lo hget hl hla hlo
    rw [Nat.zero_add] at hmem
    exact hmem
  · intro i l la lo l' la' lo' hi
    show (if (0 : ℕ) = 0 then "#m_ylw-pushpin0" else "#m_ylw-pushpin") ≠
      (if i = 0 then "#m_ylw-pushpin0" else "#m_ylw-pushpin")
    rw [if_pos rfl, if_neg hi]
    decide

/-- C4 witness: a one-row table, plus the style distinction at index 1. -/
theorem C4_writer_witness :
    ([CsvRow.mk (some 1) (some 2) (some 3)].get? 0 =
        some (CsvRow.mk (some 1) (some 2) (some 3))) ∧
    mkPlacemark 0 1 2 3 ∈
      csv_to_kml_placemarks [CsvRow.mk (some 1) (some 2) (some 3)] ∧
    ((1 : ℕ) ≠ 0) ∧
    (mkPlacemark 0 1 2 3).styleUrl ≠ (mkPlacemark 1 4 5 6).styleUrl :=
  ⟨rfl,
   (C4_writer [CsvRow.mk (some 1) (some 2) (some 3)]).2.2.1 0
     (CsvRow.mk (some 1) (some 2) (some 3)) 1 2 3 rfl rfl rfl rfl,
   by decide,
   (C4_writer []).2.2.2.2 1 1 2 3 4 5 6 (by decide)⟩

lemma build_table_length : ∀ seq : List (ℝ × ℝ),
    (build_table seq).length = seq.length := by
  intro seq
  induction seq with
  | nil => rfl
  | cons a seq ih =>
    cases seq with
    | nil => cases a; rfl
    | cons b rest =>
      cases a
      show (build_table (_ :: b :: rest)).length = _
      rw [show build_table ((_, _) :: b :: rest) = _ :: build_table (b :: rest)
        from rfl]
      rw [List.length_cons, List.length_cons, ih]

lemma build_table_last : ∀ (seq : List (ℝ × ℝ)) (i : ℕ) (a : ℝ × ℝ),
    seq.get? i = some a → i + 1 = seq.length →
    (build_table seq).get? i = some ⟨a.1, a.2, none, none, none⟩ := by
  intro seq
  induction seq with
  | nil =>
    intro i a h
    simp [List.get?] at h
  | cons a0 seq ih =>
    intro i a h hlen
    cases i with
    | zero =>
      have h0 : a0 = a := by simpa using h
      subst h0
      have hnil : seq = [] := by
        rw [List.length_cons] at hlen
        exact List.length_eq_zero.mp (by omega)
      subst hnil
      cases a0
      rfl
    | succ i =>
      have h' : seq.get? i = some a := h
      have hlen' : i + 1 = seq.length := by
        rw [List.length_cons] at hlen
        omega
      obtain ⟨b, rest, rfl⟩ : ∃ b rest, seq = b :: rest := by
        cases seq with
        | nil => simp at hlen'
        | cons x xs => exact ⟨x, xs, rfl⟩
      cases a0
      show (build_table ((_, _) :: b :: rest)).get? (i + 1) = _
      rw [show build_table ((_, _) :: b :: rest) = _ :: build_table (b :: rest)
        from rfl]
      show (build_table (b :: rest)).get? i = _
      exact ih i a h' hlen'

lemma build_table_mid : ∀ (seq : List (ℝ × ℝ)) (i : ℕ) (a b : ℝ × ℝ),
    seq.get? i = some a → seq.get? (i + 1) = some b →
    (build_table seq).get? i = some ⟨a.1, a.2,
      some (pyRound (haversine_distance a.1 a.2 b.1 b.2)),
      some ((a.1 + b.1) / 2), some ((a.2 + b.2) / 2)⟩ := by
  intro seq
  induction seq with
  | nil =>
    intro i a b h
    simp [List.get?] at h
  | cons a0 seq ih =>
    intro i a b h hnext
    cases i with
    | zero =>
      have h0 : a0 = a := by simpa using h
      subst h0
      have h1 : seq.get? 0 = some b := hnext
      obtain ⟨b0, rest, rfl⟩ : ∃ b0 rest, seq = b0 :: rest := by
        cases seq with
        | nil => simp [List.get?] at h1
        | cons x xs => exact ⟨x, xs, rfl⟩
      have hb : b0 = b := by simpa using h1
      subst hb
      cases a0
      rfl
    | succ i =>
      have h' : seq.get? i = some a := h
      have hnext' : seq.get? (i + 1) = some b := hnext
      obtain ⟨b0, rest, rfl⟩ : ∃ b0 rest, seq = b0 :: rest := by
        cases seq with
        | nil => simp [List.get?] at h'
        | cons x xs => exact ⟨x, xs, rfl⟩
      cases a0
      show (build_table ((_, _) :: b0 :: rest)).get? (i + 1) = _
      rw [show build_table ((_, _) :: b0 :: rest) = _ :: build_table (b0 :: rest)
        from rfl]
      show (build_table (b0 :: rest)).get? i = _
      exact ih i a b h' hnext'

/-- C3: `build_table` emits exactly one row per coordinate, in order; the last
row's length and midpoint fields are a true null; every other row `i` carries
`round(haversine_distance(p_i, p_{i+1}))` and the arithmetic midpoint of
`p_i` and `p_{i+1}`; the empty sequence yields the empty table. -/
theorem C3_build_table :
    (∀ seq : List (ℝ × ℝ), (build_table seq).length = seq.length) ∧
    (∀ (seq : List (ℝ × ℝ)) (i : ℕ) (a : ℝ × ℝ),
      seq.get? i = some a → i + 1 = seq.length →
      (build_table seq).get? i = some ⟨a.1, a.2, none, none, none⟩) ∧
    (∀ (seq : List (ℝ × ℝ)) (i : ℕ) (a b : ℝ × ℝ),
      seq.get? i = some a → seq.get? (i + 1) = some b →
      (build_table seq).get? i = some ⟨a.1, a.2,
        some (pyRound (haversine_distance a.1 a.2 b.1 b.2)),
        some ((a.1 + b.1) / 2), some ((a.2 + b.2) / 2)⟩) ∧
    build_table [] = [] :=
  ⟨build_table_length, build_table_last, build_table_mid, rfl⟩

/-- C3 witness: the two-point sequence [(0,0),(1,1)]. -/
theorem C3_build_table_witness :
    ([((0 : ℝ), (0 : ℝ)), (1, 1)].get? 1 = some (1, 1)) ∧
    (1 + 1 = [((0 : ℝ), (0 : ℝ)), (1, 1)].length) ∧
    ((build_table [((0 : ℝ), (0 : ℝ)), (1, 1)]).get? 1 =
      some ⟨1, 1, none, none, none⟩) ∧
    ([((0 : ℝ), (0 : ℝ)), (1, 1)].get? 0 = some (0, 0)) ∧
    ((build_table [((0 : ℝ), (0 : ℝ)), (1, 1)]).get? 0 = some ⟨0, 0,
      some (pyRound (haversine_distance 0 0 1 1)),
      some ((0 + 1) / 2), some ((0 + 1) / 2)⟩) :=
  ⟨rfl, rfl, C3_build_table.2.1 _ 1 (1, 1) rfl rfl, rfl,
   C3_build_table.2.2.1 _ 0 (0, 0) (1, 1) rfl rfl⟩

lemma arctan_nonneg_of_nonneg {x : ℝ} (h : 0 ≤ x) : 0 ≤ Real.arctan x := by
  have := Real.arctan_strictMono.monotone h
  rwa [Real.arctan_zero] at this

lemma atan2_zero_one : atan2 0 1 = 0 := by
  unfold atan2
  rw [if_pos one_pos, zero_div, Real.arctan_zero]

lemma atan2_nonneg (y x : ℝ) (hy : 0 ≤ y) : 0 ≤ atan2 y x := by
  unfold atan2
  by_cases h1 : 0 < x
  · rw [if_pos h1]
    exact arctan_nonneg_of_nonneg (div_nonneg hy h1.le)
  · rw [if_neg h1]
    by_cases h2 : x < 0
    · rw [if_pos h2, if_pos hy]
      have := Real.neg_pi_div_two_lt_arctan (y / x)
      have hpi := Real.pi_pos
      linarith
    · rw [if_neg h2]
      by_cases h4 : 0 < y
      · rw [if_pos h4]
        have := Real.pi_pos
        linarith
      · rw [if_neg h4, if_neg (by linarith : ¬ y < 0)]

/-- C8: `haversine_distance` is zero on equal points, symmetric in its two
points, and non-negative everywhere. -/
theorem C8_distance_props :
    (∀ lat lon : ℝ, haversine_distance lat lon lat lon = 0) ∧
    (∀ lat1 lon1 lat2 lon2 : ℝ,
      haversine_distance lat1 lon1 lat2 lon2 =
        haversine_distance lat2 lon2 lat1 lon1) ∧
    (∀ lat1 lon1 lat2 lon2 : ℝ,
      0 ≤ haversine_distance lat1 lon1 lat2 lon2) := by
  refine ⟨?_, ?_, ?_⟩
  · intro lat lon
    simp only [haversine_distance]
    rw [sub_self, sub_self]
    norm_num [Real.sqrt_one, atan2_zero_one]
  · intro lat1 lon1 lat2 lon2
    simp only [haversine_distance]
    have key : ∀ x y : ℝ, Real.sin ((x - y) / 2) ^ 2 = Real.sin ((y - x) / 2) ^ 2 := by
      intro x y
      rw [show (x - y) / 2 = -((y - x) / 2) from by ring, Real.sin_neg]
      ring
    have ha : Real.sin ((lat2 * Real.pi / 180 - lat1 * Real.pi / 180) / 2) ^ 2 +
        Real.cos (lat1 * Real.pi / 180) * Real.cos (lat2 * Real.pi / 180) *
          Real.sin ((lon2 * Real.pi / 180 - lon1 * Real.pi / 180) / 2) ^ 2 =
        Real.sin ((lat1 * Real.pi / 180 - lat2 * Real.pi / 180) / 2) ^ 2 +
        Real.cos (lat2 * Real.pi / 180) * Real.cos (lat1 * Real.pi / 180) *
          Real.sin ((lon1 * Real.pi / 180 - lon2 * Real.pi / 180) / 2) ^ 2 := by
      rw [key, key (lon2 * Real.pi / 180)]
      ring
    rw [ha]
  · intro lat1 lon1 lat2 lon2
    simp only [haversine_distance]
    have := atan2_nonneg (Real.sqrt (Real.sin ((lat2 * Real.pi / 180 -
        lat1 * Real.pi / 180) / 2) ^ 2 +
        Real.cos (lat1 * Real.pi / 180) * Real.cos (lat2 * Real.pi / 180) *
          Real.sin ((lon2 * Real.pi / 180 - lon1 * Real.pi / 180) / 2) ^ 2))
      (Real.sqrt (1 - (Real.sin ((lat2 * Real.pi / 180 -
        lat1 * Real.pi / 180) / 2) ^ 2 +
        Real.cos (lat1 * Real.pi / 180) * Real.cos (lat2 * Real.pi / 180) *
          Real.sin ((lon2 * Real.pi / 180 - lon1 * Real.pi / 180) / 2) ^ 2)))
      (Real.sqrt_nonneg _)
    positivity

lemma sqrt_five_fourths : Real.sqrt (5 / 4) = Real.sqrt 5 / 2 := by
  rw [show (5 : ℝ) / 4 = 5 * (1 / 2) ^ 2 from by norm_num,
    Real.sqrt_mul (by norm_num) ((1 / 2) ^ 2),
    Real.sqrt_sq (by norm_num : (0 : ℝ) ≤ 1 / 2)]
  ring

lemma greatCircleMidLat_example :
    greatCircleMidLat 0 0 (Real.pi / 3) (Real.pi / 2) =
      Real.arctan (Real.sqrt 3 / Real.sqrt 5) := by
  unfold greatCircleMidLat
  rw [show Real.pi / 2 - 0 = Real.pi / 2 from sub_zero _,
    Real.cos_pi_div_two, Real.sin_pi_div_two, Real.sin_zero, Real.cos_zero,
    Real.sin_pi_div_three, Real.cos_pi_div_three]
  show atan2 (0 + Real.sqrt 3 / 2)
    (Real.sqrt (((1 : ℝ) + 1 / 2 * 0) ^ 2 + (1 / 2 * 1) ^ 2)) = _
  rw [show ((1 : ℝ) + 1 / 2 * 0) ^ 2 + (1 / 2 * 1) ^ 2 = 5 / 4 from by norm_num,
    sqrt_five_fourths,
    show (0 : ℝ) + Real.sqrt 3 / 2 = Real.sqrt 3 / 2 from by ring]
  unfold atan2
  rw [if_pos (by positivity : (0 : ℝ) < Real.sqrt 5 / 2)]
  congr 1
  have h5 : Real.sqrt 5 ≠ 0 := by positivity
  field_simp

/-- C7: the mid fields of `build_table` are the elementwise arithmetic means
of consecutive points, and the arithmetic mean is not the great-circle
midpoint: at the radian points (0,0) and (π/3, π/2) the true great-circle
midpoint latitude differs from the arithmetic mean of the latitudes. -/
theorem C7_midpoint_arithmetic_mean :
    (∀ (seq : List (ℝ × ℝ)) (i : ℕ) (a b : ℝ × ℝ),
      seq.get? i = some a → seq.get? (i + 1) = some b →
      ((build_table seq).get? i).map
          (fun row => (row.latitude_mid, row.longitude_mid)) =
        some (some ((a.1 + b.1) / 2), some ((a.2 + b.2) / 2))) ∧
    greatCircleMidLat 0 0 (Real.pi / 3) (Real.pi / 2) ≠
      (0 + Real.pi / 3) / 2 := by
  constructor
  · intro seq i a b ha hb
    rw [build_table_mid seq i a b ha hb]
    rfl
  · intro hEq
    rw [show ((0 : ℝ) + Real.pi / 3) / 2 = Real.pi / 6 from by ring,
      greatCircleMidLat_example] at hEq
    have htan := congrArg Real.tan hEq
    rw [Real.tan_arctan] at htan
    have htan6 : Real.tan (Real.pi / 6) = 1 / Real.sqrt 3 := by
      rw [Real.tan_eq_sin_div_cos, Real.sin_pi_div_six, Real.cos_pi_div_six]
      have h3 : Real.sqrt 3 ≠ 0 := by positivity
      field_simp
    rw [htan6] at htan
    have h3 : (0 : ℝ) < Real.sqrt 3 := by positivity
    have h5 : (0 : ℝ) < Real.sqrt 5 := by positivity
    field_simp [h3.ne', h5.ne'] at htan
    have h9 : Real.sqrt 9 = 3 := by
      rw [show (9 : ℝ) = 3 ^ 2 from by norm_num,
        Real.sqrt_sq (by norm_num : (0 : ℝ) ≤ 3)]
    have hlt : Real.sqrt 5 < 3 := by
      calc Real.sqrt 5 < Real.sqrt 9 := Real.sqrt_lt_sqrt (by norm_num) (by norm_num)
      _ = 3 := h9
    linarith

/-- C7 witness: the mean of the mid fields at the two-point sequence
[(0,0),(1,1)]. -/
theorem C7_midpoint_arithmetic_mean_witness :
    ([((0 : ℝ), (0 : ℝ)), (1, 1)].get? 0 = some (0, 0)) ∧
    ([((0 : ℝ), (0 : ℝ)), (1, 1)].get? 1 = some (1, 1)) ∧
    (((build_table [((0 : ℝ), (0 : ℝ)), (1, 1)]).get? 0).map
        (fun row => (row.latitude_mid, row.longitude_mid)) =
      some (some ((0 + 1) / 2), some ((0 + 1) / 2))) :=
  ⟨rfl, rfl, C7_midpoint_arithmetic_mean.1 _ 0 (0, 0) (1, 1) rfl rfl⟩
